import Mathlib

/-!
Verification development for the meeting-transcript action tracker backend.

The Python source (`backend.py`, `action_tracker.py`) is shallowly embedded:

* Python `str` values are modelled as `List Char` (`Str`), with the relevant
  string methods (`lower`, `strip`, `split`, `in`, `startswith`, slicing via
  `take`/`drop`) reimplemented as structural recursions over `List Char`.
* Python dicts with a fixed field set (users, tasks, meetings, change
  requests) are modelled as structures; key absence is modelled with
  `Option` where the source distinguishes it.
* The user store and meeting store (JSON-file-backed dicts) are modelled as
  association lists in insertion order, matching Python dict iteration.
* Exceptions are modelled with `Except`: `PyErr.indexError` for an
  `IndexError` raised by `[0]` on an empty `split()` result, and
  `PyErr.valueError` for the schema `ValueError` in transcript processing.
-/

/-- Python `str` modelled as a list of characters. -/
abbrev Str := List Char

/-- Python `s.lower()`. -/
def lowerS (s : Str) : Str := s.map Char.toLower

/-- Python `s.strip()`: drop whitespace from both ends. -/
def strip (s : Str) : Str :=
  ((s.dropWhile Char.isWhitespace).reverse.dropWhile Char.isWhitespace).reverse

/-- Python `s.split()` with no argument: split on whitespace runs, no empty chunks. -/
def toks (s : Str) : List Str :=
  (s.splitOnP Char.isWhitespace).filter (fun t => !t.isEmpty)

/-- Python `s.split(c)` for a single-character separator: empty chunks are kept. -/
def splitNl (s : Str) : List Str := s.splitOnP (fun c => c == '\n')

/-- Python `needle in hay` for strings: contiguous substring test
(the empty string is a substring of everything). -/
def hasSub (n : Str) : Str → Bool
  | [] => n.isEmpty
  | c :: rest => n.isPrefixOf (c :: rest) || hasSub n rest

/-- Python `s.startswith(pre)`. -/
def startsW (pre s : Str) : Bool := pre.isPrefixOf s

/-- Python `s.find(c)` restricted to the uses in the source, where the
character is known to occur; returns the index of the first occurrence
(`s.length` when absent, never consulted by the callers below). -/
def idx (c : Char) : Str → Nat
  | [] => 0
  | d :: rest => if d == c then 0 else idx c rest + 1

/-- A stored user record (`users.json` value): the fields read by the
resolver, with `dict.get(k, '')` defaults folded into total fields. -/
structure UserData where
  name : Str
  email : Str
  role : Str
  deriving DecidableEq, Repr

/-- The user store `users`: a dict `user_id -> user_data` in insertion
order, as iterated by `users.items()`. -/
abbrev Directory := List (Str × UserData)

/-- The dict returned by `find_user_by_name_or_context` on success. -/
structure UserRec where
  id : Str
  name : Str
  email : Str
  role : Str
  deriving DecidableEq, Repr

/-- Python exceptions relevant to the embedded code. -/
inductive PyErr where
  | indexError
  | valueError
  deriving DecidableEq, Repr

deriving instance DecidableEq for Except

abbrev PyRes (α : Type) := Except PyErr α

/-- Result dict built by the exact-match, token-set and first-name stages:
`name` is the *stripped* stored name (`user_data.get('name','').strip()`). -/
def mkRecStripped (uid : Str) (u : UserData) : UserRec :=
  { id := uid, name := strip u.name, email := u.email, role := u.role }

/-- Result dict built by the email and partial-match stages: `name` is the
stored name verbatim (`user_data.get('name')`). -/
def mkRecRaw (uid : Str) (u : UserData) : UserRec :=
  { id := uid, name := u.name, email := u.email, role := u.role }

/-- Stage 2 of `find_user_by_name_or_context` (backend.py:164-167): first
user whose stripped, lower-cased name equals `owner_lower`. -/
def exactStage (owner_lower : Str) (users : Directory) : Option UserRec :=
  (users.find? (fun p => lowerS (strip p.2.name) == owner_lower)).map
    (fun p => mkRecStripped p.1 p.2)

/-- The order-independent token-set comparison of backend.py:176-179:
equal token counts and every owner token equal (case-insensitively) to
some user token. -/
def tokenTie (owner_parts : List Str) (u : UserData) : Bool :=
  let user_parts := toks (strip u.name)
  owner_parts.length == user_parts.length &&
  owner_parts.all (fun p => user_parts.any (fun up => lowerS p == lowerS up))

/-- Stage 3 of `find_user_by_name_or_context` (backend.py:169-185): the
full-name token-set match. Both arms of the role-hint conditional in the
source return the user record of the *current* (i.e. first) tying entry,
which is why the arms below coincide. -/
def tieStage (role_hint : Option Str) (owner_name : Str) (users : Directory) :
    Option UserRec :=
  if owner_name.contains ' ' then
    (users.find? (fun p => tokenTie (toks owner_name) p.2)).map (fun p =>
      match role_hint with
      | some h =>
        if h == [] then mkRecStripped p.1 p.2
        else if hasSub h (lowerS p.2.role) || hasSub (lowerS p.2.role) h then
          mkRecStripped p.1 p.2
        else
          mkRecStripped p.1 p.2
      | none => mkRecStripped p.1 p.2)
  else none

/-- Stage 4 of `find_user_by_name_or_context` (backend.py:187-194): first
name plus role-hint overlap. `owner_name.split()[0]` is modelled with an
explicit `IndexError` branch for an empty split. -/
def firstNameRoleStage (role_hint : Option Str) (owner_name : Str)
    (users : Directory) : PyRes (Option UserRec) :=
  match role_hint with
  | none => .ok none
  | some h =>
    if h == [] then .ok none
    else if owner_name.contains ' ' then
      match toks owner_name with
      | [] => .error .indexError
      | f :: _ =>
        let first_name := lowerS f
        .ok ((users.find? (fun p =>
              startsW first_name (lowerS (strip p.2.name)) &&
              (hasSub h (lowerS p.2.role) || hasSub (lowerS p.2.role) h))).map
            (fun p => mkRecStripped p.1 p.2))
    else .ok none

/-- Stage 5 of `find_user_by_name_or_context` (backend.py:196-201): exact
(case-insensitive) email match, attempted only when the name contains `@`. -/
def emailStage (owner_name owner_lower : Str) (users : Directory) :
    Option UserRec :=
  if owner_name.contains '@' then
    (users.find? (fun p => lowerS p.2.email == owner_lower)).map
      (fun p => mkRecRaw p.1 p.2)
  else none

/-- Stage 6 of `find_user_by_name_or_context` (backend.py:203-212): the
last-resort substring match. For each user whose lower-cased name contains
`owner_lower` or vice versa, the source evaluates `owner_lower.split()[0]`
and then `user_name.split()[0]`; either raises `IndexError` on an empty
split, modelled by the explicit error branches. -/
def substrStage (owner_lower : Str) : Directory → PyRes (Option UserRec)
  | [] => .ok none
  | p :: rest =>
    if hasSub owner_lower (lowerS p.2.name) ||
       hasSub (lowerS p.2.name) owner_lower then
      match toks owner_lower with
      | [] => .error .indexError
      | o1 :: _ =>
        match toks (lowerS p.2.name) with
        | [] => .error .indexError
        | u1 :: _ =>
          if o1 == u1 then .ok (some (mkRecRaw p.1 p.2))
          else substrStage owner_lower rest
    else substrStage owner_lower rest

/-- The parenthetical role hint of backend.py:157-159, with Python slicing
semantics (`s[i+1:j]` clamps to the empty string when `j ≤ i+1`);
`none` when no parenthetical pair is present. -/
def roleHintOf (s : Str) : Option Str :=
  if s.contains '(' && s.contains ')' then
    some (lowerS ((s.drop (idx '(' s + 1)).take (idx ')' s - (idx '(' s + 1))))
  else none

/-- The owner name after hint stripping (backend.py:160): the text before
the first `(`, stripped, when a parenthetical pair is present. -/
def ownerNameOf (s : Str) : Str :=
  if s.contains '(' && s.contains ')' then strip (s.take (idx '(' s)) else s

/-- `find_user_by_name_or_context` (backend.py:138-212). The
`transcript_context` parameter is accepted but never read, exactly as in
the source. `owner_lower` is the stripped lower-casing of the
(hint-stripped) owner name, as recomputed at backend.py:161. -/
def find_user_by_name_or_context (owner_name0 : Str)
    (_transcript_context : Option Str) (users : Directory) :
    PyRes (Option UserRec) :=
  if owner_name0 == [] || owner_name0 == ("UNASSIGNED".toList) then .ok none
  else
    match exactStage (strip (lowerS (ownerNameOf owner_name0))) users with
    | some r => .ok (some r)
    | none =>
      match tieStage (roleHintOf owner_name0) (ownerNameOf owner_name0) users with
      | some r => .ok (some r)
      | none =>
        match firstNameRoleStage (roleHintOf owner_name0) (ownerNameOf owner_name0)
            users with
        | .error e => .error e
        | .ok (some r) => .ok (some r)
        | .ok none =>
          match emailStage (ownerNameOf owner_name0)
              (strip (lowerS (ownerNameOf owner_name0))) users with
          | some r => .ok (some r)
          | none => substrStage (strip (lowerS (ownerNameOf owner_name0))) users

/-- A comment on a task (backend.py:949-955). -/
structure Comment where
  id : Str
  user_id : Str
  user_name : Str
  text : Str
  created_at : Str
  deriving DecidableEq, Repr

/-- A change request on a task (backend.py:997-1004). -/
structure ChangeRequest where
  id : Str
  user_id : Str
  user_name : Str
  request : Str
  status : Str
  created_at : Str
  deriving DecidableEq, Repr

/-- The meeting `summary` block: four counters
(action_tracker.py:40-48, backend.py:460-465). -/
structure Summary where
  total_actions : Nat
  total_decisions : Nat
  total_blockers : Nat
  unassigned_actions : Nat
  deriving DecidableEq, Repr

/-- A raw extraction task as parsed from the model response. The schema's
required fields (`id`, `description`, `owner`, `intent`, `confidence`) are
total; the optional ones use `Option` for key absence. For `dependencies`,
`comments` and `change_requests` the source coerces both an absent key and
a non-list value to `[]`, so both are modelled as `none`. -/
structure RawTask where
  id : Str
  description : Str
  owner : Str
  intent : Str
  confidence : Str
  due_date : Option Str
  context : Option Str
  source_line : Option Str
  dependencies : Option (List Str)
  comments : Option (List Comment)
  change_requests : Option (List ChangeRequest)
  deriving DecidableEq, Repr

/-- The raw extraction payload `result` (a parsed JSON object): `actions`
and `summary` may be absent keys. -/
structure RawPayload where
  actions : Option (List RawTask)
  summary : Option Summary
  deriving DecidableEq, Repr

/-- `validate_output` (action_tracker.py:64-99): requires both `actions`
and `summary` keys, `actions` a list, `summary` a dict, each action
carrying the required fields with `intent` and `confidence` in their
enums. Required-field presence is total in this embedding. -/
def validate_output (p : RawPayload) : Bool :=
  match p.actions, p.summary with
  | some acts, some _ =>
    acts.all (fun a =>
      (a.intent == ("ACTION".toList) || a.intent == ("DECISION".toList) ||
       a.intent == ("BLOCKER".toList)) &&
      (a.confidence == ("HIGH".toList) || a.confidence == ("MEDIUM".toList) ||
       a.confidence == ("LOW".toList)))
  | _, _ => false

/-- A normalized task, after the per-action loop of
`process_transcript_with_gemini` (backend.py:411-455). `status` is the
Kanban field later endpoints may read or patch in; extraction never sets
it. -/
structure ActionTask where
  id : Str
  description : Str
  owner : Str
  owner_id : Option Str
  intent : Str
  confidence : Str
  due_date : Option Str
  source_line : Str
  dependencies : List Str
  comments : List Comment
  change_requests : List ChangeRequest
  status : Option Str
  deriving DecidableEq, Repr

/-- Builds the normalized task from a raw task plus the owner fields and
backfilled source line computed by the loop. -/
def mkTask (a : RawTask) (owner : Str) (owner_id : Option Str) (src : Str) :
    ActionTask :=
  { id := a.id, description := a.description, owner := owner,
    owner_id := owner_id, intent := a.intent, confidence := a.confidence,
    due_date := a.due_date, source_line := src,
    dependencies := a.dependencies.getD [],
    comments := a.comments.getD [],
    change_requests := a.change_requests.getD [],
    status := none }

/-- The `source_line` backfill (backend.py:412-420): when the key is
absent, take the first transcript line containing the first 50 characters
of the lower-cased description or any of its first five words, stripped;
otherwise the empty string. -/
def backfillSourceLine (transcript : Str) (a : RawTask) : Str :=
  match a.source_line with
  | some s => s
  | none =>
    match (splitNl transcript).find? (fun line =>
        hasSub ((lowerS a.description).take 50) (lowerS line) ||
        ((toks (lowerS a.description)).take 5).any
          (fun w => hasSub w (lowerS line))) with
    | some line => strip line
    | none => []

/-- The per-action body of the normalization loop (backend.py:411-455):
backfill `source_line`, resolve the owner (skipped for the literal
`UNASSIGNED`), overwrite `owner`/`owner_id` on success, default the
array fields. A resolver exception propagates. -/
def normalizeTask (transcript : Str) (users : Directory) (a : RawTask) :
    PyRes ActionTask :=
  let src := backfillSourceLine transcript a
  if a.owner == ("UNASSIGNED".toList) then
    .ok (mkTask a a.owner none src)
  else
    match find_user_by_name_or_context a.owner (some transcript) users with
    | .error e => .error e
    | .ok (some m) => .ok (mkTask a m.name (some m.id) src)
    | .ok none => .ok (mkTask a a.owner none src)

/-- Sequential effectful map, modelling the Python `for` loop over the
actions list: the first raised exception aborts the whole computation. -/
def mapE (f : α → Except ε β) : List α → Except ε (List β)
  | [] => .ok []
  | a :: rest =>
    match f a with
    | .error e => .error e
    | .ok b =>
      match mapE f rest with
      | .error e => .error e
      | .ok bs => .ok (b :: bs)

/-- The summary recomputation of backend.py:459-465: counts over the
normalized actions by intent, plus owners left as the literal
`UNASSIGNED`. -/
def recomputeSummary (acts : List ActionTask) : Summary :=
  { total_actions := (acts.filter (fun a => a.intent == ("ACTION".toList))).length,
    total_decisions := (acts.filter (fun a => a.intent == ("DECISION".toList))).length,
    total_blockers := (acts.filter (fun a => a.intent == ("BLOCKER".toList))).length,
    unassigned_actions := (acts.filter (fun a => a.owner == ("UNASSIGNED".toList))).length }

/-- The normalized payload produced by `process_transcript_with_gemini`. -/
structure NormPayload where
  actions : List ActionTask
  summary : Summary
  deriving DecidableEq, Repr

/-- The deterministic core of `process_transcript_with_gemini`
(backend.py:402-467), from the parsed model response `result` onward: the
Gemini call itself is an external collaborator and is not embedded.
Validation failure raises `ValueError`; then each action is normalized in
order; finally the summary is recomputed *only if the `summary` key is
absent* (backend.py:458), otherwise the upstream block is kept. -/
def process_transcript_with_gemini (p : RawPayload) (transcript : Str)
    (users : Directory) : PyRes NormPayload :=
  if validate_output p then
    match mapE (normalizeTask transcript users) (p.actions.getD []) with
    | .error e => .error e
    | .ok acts =>
      let summ :=
        match p.summary with
        | some s => s
        | none => recomputeSummary acts
      .ok ⟨acts, summ⟩
  else .error .valueError

/-- A stored meeting record (backend.py:724-734). -/
structure Meeting where
  id : Str
  title : Str
  transcript : Str
  owner_id : Str
  owner_email : Str
  owner_name : Str
  processed_at : Str
  actions : List ActionTask
  summary : Summary
  deriving DecidableEq, Repr

/-- The authenticated actor (`request.current_user`): a user record with
its id attached, as produced by `get_user_by_id`. -/
structure Actor where
  id : Str
  name : Str
  email : Str
  role : Str
  deriving DecidableEq, Repr

/-- The JSON body of a PATCH to an action: a partial dict over the task's
fields. `action.update(data)` merges every supplied key; a `some` field
overwrites, `none` leaves the stored value. -/
structure Patch where
  id : Option Str := none
  description : Option Str := none
  owner : Option Str := none
  owner_id : Option (Option Str) := none
  intent : Option Str := none
  confidence : Option Str := none
  due_date : Option (Option Str) := none
  source_line : Option Str := none
  dependencies : Option (List Str) := none
  comments : Option (List Comment) := none
  change_requests : Option (List ChangeRequest) := none
  status : Option (Option Str) := none
  deriving DecidableEq, Repr

/-- Python `action.update(data)` (backend.py:909): pointwise overwrite of
the stored task by every key present in the patch, with no field
restriction. -/
def dictUpdate (a : ActionTask) (p : Patch) : ActionTask :=
  { id := p.id.getD a.id,
    description := p.description.getD a.description,
    owner := p.owner.getD a.owner,
    owner_id := p.owner_id.getD a.owner_id,
    intent := p.intent.getD a.intent,
    confidence := p.confidence.getD a.confidence,
    due_date := p.due_date.getD a.due_date,
    source_line := p.source_line.getD a.source_line,
    dependencies := p.dependencies.getD a.dependencies,
    comments := p.comments.getD a.comments,
    change_requests := p.change_requests.getD a.change_requests,
    status := p.status.getD a.status }

/-- Error responses of the task/change-request endpoints: 404, 403, 400. -/
inductive ApiErr where
  | notFound
  | authError
  | validationError
  deriving DecidableEq, Repr

/-- The meeting store (`meetings.json`): a dict `meeting_id -> meeting` in
insertion order. -/
abbrev Store := List (Str × Meeting)

/-- `get_meeting` (backend.py:336-339). -/
def lookupStore (st : Store) (mid : Str) : Option Meeting :=
  (st.find? (fun p => p.1 == mid)).map (fun p => p.2)

/-- `save_meeting` (backend.py:327-333): `meetings[meeting_id] = data` —
replace the existing key in place or append a new one. -/
def saveMeeting : Store → Str → Meeting → Store
  | [], mid, m => [(mid, m)]
  | p :: rest, mid, m =>
    if p.1 == mid then (mid, m) :: rest else p :: saveMeeting rest mid m

/-- The task-owner test of `update_action` (backend.py:888-899): canonical
`owner_id` equality first (`None == id` is false), then the legacy
name/email fallback, case-sensitive then case-insensitive. -/
def isTaskOwnerUpd (a : ActionTask) (user : Actor) : Bool :=
  (match a.owner_id with
   | some o => o == user.id
   | none => false) ||
  a.owner == user.name || a.owner == user.email ||
  lowerS a.owner == lowerS user.name || lowerS a.owner == lowerS user.email

/-- In-place mutation of the first action whose id matches, as done by the
`for ... break` search plus `action.update(data)` on the shared object. -/
def updateFirst : List ActionTask → Str → Patch → List ActionTask
  | [], _, _ => []
  | a :: rest, aid, d =>
    if a.id == aid then dictUpdate a d :: rest
    else updateFirst rest aid d |>.cons a

/-- `update_action` — PATCH /api/meetings/m/actions/a (backend.py:856-912):
find the meeting and action, allow only the task owner (canonical id or
legacy fallback), merge the patch and save. Returns the response payload
and the resulting store; a denied or failed request leaves the store
untouched. -/
def update_action (st : Store) (meeting_id action_id : Str) (user : Actor)
    (data : Patch) : Except ApiErr ActionTask × Store :=
  match lookupStore st meeting_id with
  | none => (.error .notFound, st)
  | some meeting =>
    match meeting.actions.find? (fun a => a.id == action_id) with
    | none => (.error .notFound, st)
    | some action =>
      if isTaskOwnerUpd action user then
        (.ok (dictUpdate action data),
         saveMeeting st meeting_id
           { meeting with actions := updateFirst meeting.actions action_id data })
      else (.error .authError, st)

/-- Append a change request to the first action whose id matches
(backend.py:982-1007, in-place `append` on the shared dict). -/
def appendCr : List ActionTask → Str → ChangeRequest → List ActionTask
  | [], _, _ => []
  | a :: rest, aid, cr =>
    if a.id == aid then
      { a with change_requests := a.change_requests ++ [cr] } :: rest
    else appendCr rest aid cr |>.cons a

/-- `add_change_request` — POST .../change-requests (backend.py:963-1009):
any authenticated user may file one; the new request's status is the
literal `pending`. `new_id` and `created_at` stand for the `uuid4()` and
`datetime.now()` calls. -/
def add_change_request (st : Store) (meeting_id action_id : Str)
    (user : Actor) (request_text : Str) (new_id created_at : Str) :
    Except ApiErr ChangeRequest × Store :=
  match lookupStore st meeting_id with
  | none => (.error .notFound, st)
  | some meeting =>
    let t := strip request_text
    if t == [] then (.error .validationError, st)
    else
      match meeting.actions.find? (fun a => a.id == action_id) with
      | none => (.error .notFound, st)
      | some _ =>
        let cr : ChangeRequest :=
          { id := new_id, user_id := user.id, user_name := user.name,
            request := t, status := ("pending".toList),
            created_at := created_at }
        (.ok cr,
         saveMeeting st meeting_id
           { meeting with actions := appendCr meeting.actions action_id cr })

/-- The meeting-owner test of `update_change_request_status`
(backend.py:1043). -/
def isMeetingOwner (m : Meeting) (user : Actor) : Bool :=
  m.owner_id == user.id

/-- The task-owner test of `update_change_request_status`
(backend.py:1044): `task_owner_id == user['id'] if task_owner_id else
False` — only a *truthy* (present, non-empty) canonical id is consulted;
there is no name/email fallback here. -/
def isTaskOwnerCr (a : ActionTask) (user : Actor) : Bool :=
  match a.owner_id with
  | some o => !(o == []) && o == user.id
  | none => false

/-- Set the status of the first change request whose id matches. -/
def setCrStatus : List ChangeRequest → Str → Str → List ChangeRequest
  | [], _, _ => []
  | cr :: rest, rid, s =>
    if cr.id == rid then { cr with status := s } :: rest
    else setCrStatus rest rid s |>.cons cr

/-- In-place mutation of the matched change request inside the first
matching action. -/
def setCrInActions : List ActionTask → Str → Str → Str → List ActionTask
  | [], _, _, _ => []
  | a :: rest, aid, rid, s =>
    if a.id == aid then
      { a with change_requests := setCrStatus a.change_requests rid s } :: rest
    else setCrInActions rest aid rid s |>.cons a

/-- `update_change_request_status` — PATCH .../change-requests/r
(backend.py:1012-1063): validate the target status, find the action,
allow only the meeting owner or the task owner by truthy canonical id,
then overwrite the request's status unconditionally (no check of its
current value). -/
def update_change_request_status (st : Store)
    (meeting_id action_id request_id : Str) (user : Actor)
    (new_status : Option Str) : Except ApiErr ChangeRequest × Store :=
  match lookupStore st meeting_id with
  | none => (.error .notFound, st)
  | some meeting =>
    if !(new_status == some ("approved".toList) ||
         new_status == some ("rejected".toList)) then
      (.error .validationError, st)
    else
      match meeting.actions.find? (fun a => a.id == action_id) with
      | none => (.error .notFound, st)
      | some action =>
        if !(isMeetingOwner meeting user || isTaskOwnerCr action user) then
          (.error .authError, st)
        else
          match action.change_requests.find? (fun cr => cr.id == request_id) with
          | none => (.error .notFound, st)
          | some cr =>
            let s := new_status.getD []
            (.ok { cr with status := s },
             saveMeeting st meeting_id
               { meeting with
                 actions := setCrInActions meeting.actions action_id request_id s })

/-! ### Concrete fixtures used by witnesses and counterexamples -/

/-- A one-entry directory with an ordinary user. -/
def exDirAlice : Directory :=
  [(("u1".toList), ⟨"Alice".toList, "alice@x.com".toList, "Engineer".toList⟩)]

/-- A one-entry directory whose stored name is the empty string. -/
def exDirEmptyName : Directory :=
  [(("u1".toList), ⟨"".toList, "x@x.com".toList, "Engineer".toList⟩)]

/-- Two entries tying on the token set {john, smith}; neither equals
`john smith` verbatim; only the second entry's role matches the hint
`design`. -/
def exDirTie : Directory :=
  [(("u1".toList), ⟨"Smith John".toList, "sj@x.com".toList, "Engineer".toList⟩),
   (("u2".toList), ⟨"smith john".toList, "js@x.com".toList, "Design".toList⟩)]

/-- A directory whose single entry's stored name carries surrounding
whitespace. -/
def exDirPadded : Directory :=
  [(("u1".toList), ⟨" Alice ".toList, "alice@x.com".toList, "Engineer".toList⟩)]

/-- Raw extraction task whose owner is the literal `UNASSIGNED`. -/
def c1rawTask : RawTask :=
  { id := "t1".toList, description := "Ship the fix".toList,
    owner := "UNASSIGNED".toList, intent := "ACTION".toList,
    confidence := "HIGH".toList, due_date := none, context := none,
    source_line := some ("L1".toList), dependencies := some [],
    comments := some [], change_requests := some [] }

/-- Raw payload carrying an upstream summary block whose counters are all
wrong for its single-task action list. -/
def c1raw : RawPayload := ⟨some [c1rawTask], some ⟨999, 5, 7, 3⟩⟩

/-- The normalization of `c1rawTask`. -/
def c1norm : ActionTask :=
  { id := "t1".toList, description := "Ship the fix".toList,
    owner := "UNASSIGNED".toList, owner_id := none,
    intent := "ACTION".toList, confidence := "HIGH".toList,
    due_date := none, source_line := "L1".toList, dependencies := [],
    comments := [], change_requests := [], status := none }

/-- Raw extraction task whose owner resolves against `exDirPadded`. -/
def c4rawTask : RawTask :=
  { id := "t1".toList, description := "Do it".toList,
    owner := "alice".toList, intent := "ACTION".toList,
    confidence := "HIGH".toList, due_date := none, context := none,
    source_line := some ("L1".toList), dependencies := some [],
    comments := some [], change_requests := some [] }

/-- Raw payload wrapping `c4rawTask`. -/
def c4raw : RawPayload := ⟨some [c4rawTask], some ⟨1, 0, 0, 0⟩⟩

/-- The normalization of `c4rawTask` against `exDirPadded`: the owner is
overwritten with the *stripped* stored name. -/
def c4norm : ActionTask :=
  { id := "t1".toList, description := "Do it".toList,
    owner := "Alice".toList, owner_id := some ("u1".toList),
    intent := "ACTION".toList, confidence := "HIGH".toList,
    due_date := none, source_line := "L1".toList, dependencies := [],
    comments := [], change_requests := [], status := none }

/-- A pending change request filed by a third party. -/
def exCr : ChangeRequest :=
  { id := "r1".toList, user_id := "u9".toList, user_name := "Bob".toList,
    request := "change due date".toList, status := "pending".toList,
    created_at := "2024-01-01".toList }

/-- A change request already in the terminal state `approved`. -/
def exCrApproved : ChangeRequest :=
  { id := "r2".toList, user_id := "u9".toList, user_name := "Bob".toList,
    request := "drop it".toList, status := "approved".toList,
    created_at := "2024-01-02".toList }

/-- A legacy task: no canonical `owner_id`, owner recorded only as the
display string `alice@x.com`. -/
def legacyTask : ActionTask :=
  { id := "a1".toList, description := "Legacy work".toList,
    owner := "alice@x.com".toList, owner_id := none,
    intent := "ACTION".toList, confidence := "HIGH".toList,
    due_date := none, source_line := "".toList, dependencies := [],
    comments := [], change_requests := [exCr, exCrApproved], status := none }

/-- A task with a canonical owner id (`uCarol`). -/
def idTask : ActionTask :=
  { id := "a2".toList, description := "Canonical work".toList,
    owner := "Carol".toList, owner_id := some ("uCarol".toList),
    intent := "ACTION".toList, confidence := "MEDIUM".toList,
    due_date := none, source_line := "".toList, dependencies := [],
    comments := [], change_requests := [exCr], status := none }

/-- A task whose canonical owner id (`uCarol`) and owner display string
(`Victor`) identify different users. -/
def vTask : ActionTask :=
  { id := "a3".toList, description := "Disputed work".toList,
    owner := "Victor".toList, owner_id := some ("uCarol".toList),
    intent := "ACTION".toList, confidence := "LOW".toList,
    due_date := none, source_line := "".toList, dependencies := [],
    comments := [], change_requests := [], status := none }

/-- A stored meeting owned by `uOwner` holding the three tasks above. -/
def exMeeting : Meeting :=
  { id := "m1".toList, title := "Sync".toList, transcript := "".toList,
    owner_id := "uOwner".toList, owner_email := "mia@x.com".toList,
    owner_name := "Mia".toList, processed_at := "2024-01-03".toList,
    actions := [legacyTask, idTask, vTask], summary := ⟨3, 0, 0, 0⟩ }

/-- A store holding just `exMeeting`. -/
def exStore : Store := [(("m1".toList), exMeeting)]

/-- Alice: matches `legacyTask.owner` by case-insensitive email only. -/
def alice : Actor :=
  { id := "uAlice".toList, name := "Alice".toList,
    email := "ALICE@X.COM".toList, role := "Engineer".toList }

/-- Carol: the canonical owner of `idTask` and `vTask`. -/
def carol : Actor :=
  { id := "uCarol".toList, name := "Carol".toList,
    email := "carol@x.com".toList, role := "PM".toList }

/-- Victor: matches `vTask.owner` by case-insensitive name, but is not its
canonical owner. -/
def victor : Actor :=
  { id := "uVictor".toList, name := "victor".toList,
    email := "victor@x.com".toList, role := "Design".toList }

/-- Mallory: neither the meeting owner nor any task's owner. -/
def mallory : Actor :=
  { id := "uMal".toList, name := "Mallory".toList,
    email := "mal@x.com".toList, role := "Sales".toList }

/-- The meeting owner as an actor. -/
def ownerAct : Actor :=
  { id := "uOwner".toList, name := "Mia".toList,
    email := "mia@x.com".toList, role := "Admin".toList }

/-- A patch touching unrestricted fields, including `owner`, `owner_id`
and `id`. -/
def exPatch : Patch :=
  { status := some (some ("complete".toList)),
    owner := some ("Eve".toList),
    owner_id := some (some ("uEve".toList)),
    id := some ("hijacked".toList) }

/-! ### Helper lemmas -/

theorem ne_of_lowerS_ne {s t : Str} (h : lowerS s ≠ lowerS t) : s ≠ t :=
  fun he => h (by rw [he])

/-- Any successful exact-stage result is built from a directory entry with
the stripped stored name. -/
theorem exactStage_shape {ol : Str} {users : Directory} {r : UserRec}
    (h : exactStage ol users = some r) :
    ∃ u, (r.id, u) ∈ users ∧ r.name = strip u.name := by
  unfold exactStage at h
  rw [Option.map_eq_some'] at h
  obtain ⟨p, hp, rfl⟩ := h
  refine ⟨p.2, ?_, rfl⟩
  simpa [mkRecStripped] using List.mem_of_find?_eq_some hp

/-- Any successful token-set-stage result is built from a directory entry
with the stripped stored name (both arms of the role-hint conditional
agree). -/
theorem tieStage_shape {rh : Option Str} {onm : Str} {users : Directory}
    {r : UserRec} (h : tieStage rh onm users = some r) :
    ∃ u, (r.id, u) ∈ users ∧ r.name = strip u.name := by
  unfold tieStage at h
  split at h
  · rw [Option.map_eq_some'] at h
    obtain ⟨p, hp, hr⟩ := h
    have hr' : r = mkRecStripped p.1 p.2 := by
      rw [← hr]; cases rh <;> simp only [] <;> split <;> first | rfl | split <;> rfl
    subst hr'
    refine ⟨p.2, ?_, rfl⟩
    simpa [mkRecStripped] using List.mem_of_find?_eq_some hp
  · exact absurd h (by simp)

/-- Any successful first-name-stage result is built from a directory entry
with the stripped stored name. -/
theorem firstNameRoleStage_shape {rh : Option Str} {onm : Str}
    {users : Directory} {r : UserRec}
    (h : firstNameRoleStage rh onm users = .ok (some r)) :
    ∃ u, (r.id, u) ∈ users ∧ r.name = strip u.name := by
  unfold firstNameRoleStage at h
  match rh with
  | none => exact absurd h (by simp)
  | some hh =>
    simp only [] at h
    split at h
    · exact absurd h (by simp)
    · split at h
      · cases hto : toks onm with
        | nil => rw [hto] at h; exact absurd h (by simp)
        | cons f rest =>
          rw [hto] at h
          simp only [Except.ok.injEq] at h
          rw [Option.map_eq_some'] at h
          obtain ⟨p, hp, rfl⟩ := h
          refine ⟨p.2, ?_, rfl⟩
          simpa [mkRecStripped] using List.mem_of_find?_eq_some hp
      · exact absurd h (by simp)

/-- Any successful email-stage result is built from a directory entry with
the stored name verbatim. -/
theorem emailStage_shape {onm ol : Str} {users : Directory} {r : UserRec}
    (h : emailStage onm ol users = some r) :
    ∃ u, (r.id, u) ∈ users ∧ r.name = u.name := by
  unfold emailStage at h
  split at h
  · rw [Option.map_eq_some'] at h
    obtain ⟨p, hp, rfl⟩ := h
    refine ⟨p.2, ?_, rfl⟩
    simpa [mkRecRaw] using List.mem_of_find?_eq_some hp
  · exact absurd h (by simp)

/-- Any successful partial-match-stage result is built from a directory
entry with the stored name verbatim. -/
theorem substrStage_shape {ol : Str} {users : Directory} {r : UserRec}
    (h : substrStage ol users = .ok (some r)) :
    ∃ u, (r.id, u) ∈ users ∧ r.name = u.name := by
  induction users with
  | nil => exact absurd h (by simp [substrStage])
  | cons p rest ih =>
    rw [substrStage] at h
    split at h
    · cases hto : toks ol with
      | nil => simp only [hto] at h; exact Except.noConfusion h
      | cons o1 orest =>
        simp only [hto] at h
        cases htu : toks (lowerS p.2.name) with
        | nil => simp only [htu] at h; exact Except.noConfusion h
        | cons u1 urest =>
          simp only [htu] at h
          split at h
          · simp only [Except.ok.injEq, Option.some.injEq] at h
            subst h
            exact ⟨p.2, by simp [mkRecRaw], rfl⟩
          · obtain ⟨u, hu, hn⟩ := ih h
            exact ⟨u, List.mem_cons_of_mem _ hu, hn⟩
    · obtain ⟨u, hu, hn⟩ := ih h
      exact ⟨u, List.mem_cons_of_mem _ hu, hn⟩

/-- Whenever the resolver succeeds, its result is built from a directory
entry: the returned id is that entry's key and the returned name is the
entry's stored name, verbatim or stripped depending on the stage. -/
theorem resolver_shape {nm : Str} {ctx : Option Str} {users : Directory}
    {r : UserRec}
    (h : find_user_by_name_or_context nm ctx users = .ok (some r)) :
    ∃ u, (r.id, u) ∈ users ∧ (r.name = strip u.name ∨ r.name = u.name) := by
  unfold find_user_by_name_or_context at h
  split at h
  · exact absurd h (by simp)
  · cases h2 : exactStage (strip (lowerS (ownerNameOf nm))) users with
    | some r2 =>
      simp only [h2, Except.ok.injEq, Option.some.injEq] at h
      subst h
      obtain ⟨u, hu, hn⟩ := exactStage_shape h2
      exact ⟨u, hu, Or.inl hn⟩
    | none =>
      simp only [h2] at h
      cases h3 : tieStage (roleHintOf nm) (ownerNameOf nm) users with
      | some r3 =>
        simp only [h3, Except.ok.injEq, Option.some.injEq] at h
        subst h
        obtain ⟨u, hu, hn⟩ := tieStage_shape h3
        exact ⟨u, hu, Or.inl hn⟩
      | none =>
        simp only [h3] at h
        cases h4 : firstNameRoleStage (roleHintOf nm) (ownerNameOf nm) users with
        | error e => simp only [h4] at h; exact absurd h (by simp)
        | ok o4 =>
          cases o4 with
          | some r4 =>
            simp only [h4, Except.ok.injEq, Option.some.injEq] at h
            subst h
            obtain ⟨u, hu, hn⟩ := firstNameRoleStage_shape h4
            exact ⟨u, hu, Or.inl hn⟩
          | none =>
            simp only [h4] at h
            cases h5 : emailStage (ownerNameOf nm)
                (strip (lowerS (ownerNameOf nm))) users with
            | some r5 =>
              simp only [h5, Except.ok.injEq, Option.some.injEq] at h
              subst h
              obtain ⟨u, hu, hn⟩ := emailStage_shape h5
              exact ⟨u, hu, Or.inr hn⟩
            | none =>
              simp only [h5] at h
              obtain ⟨u, hu, hn⟩ := substrStage_shape h
              exact ⟨u, hu, Or.inr hn⟩

/-- Owner bookkeeping of the normalization loop: `owner_id` is null with
`owner` untouched exactly when resolution was skipped or failed, and a
non-null `owner_id` dereferences to a directory entry whose stored name
(verbatim or stripped) is the new `owner`. -/
theorem normalizeTask_owner {t : Str} {users : Directory} {ra : RawTask}
    {na : ActionTask} (h : normalizeTask t users ra = .ok na) :
    (na.owner_id = none → na.owner = ra.owner) ∧
    (∀ uid, na.owner_id = some uid →
      ∃ u, (uid, u) ∈ users ∧ (na.owner = strip u.name ∨ na.owner = u.name)) := by
  unfold normalizeTask at h
  split at h
  · simp only [Except.ok.injEq] at h
    subst h
    exact ⟨fun _ => rfl, fun uid hu => by simp [mkTask] at hu⟩
  · cases hr : find_user_by_name_or_context ra.owner (some t) users with
    | error e => rw [hr] at h; exact absurd h (by simp)
    | ok o =>
      cases o with
      | some m =>
        rw [hr] at h
        simp only [Except.ok.injEq] at h
        subst h
        refine ⟨fun hn => by simp [mkTask] at hn, fun uid hu => ?_⟩
        have hid : uid = m.id := by simpa [mkTask] using hu.symm
        subst hid
        obtain ⟨u, hu', hn⟩ := resolver_shape hr
        exact ⟨u, hu', by simpa [mkTask] using hn⟩
      | none =>
        rw [hr] at h
        simp only [Except.ok.injEq] at h
        subst h
        exact ⟨fun _ => rfl, fun uid hu => by simp [mkTask] at hu⟩

/-- `mapE` succeeds exactly pointwise: the output has the input's length
and the i-th output is the successful image of the i-th input. -/
theorem mapE_ok_pointwise {f : α → Except ε β} :
    ∀ {l : List α} {l' : List β}, mapE f l = .ok l' →
      l'.length = l.length ∧
      ∀ i a b, l.get? i = some a → l'.get? i = some b → f a = .ok b := by
  intro l
  induction l with
  | nil =>
    intro l' h
    simp only [mapE, Except.ok.injEq] at h
    subst h
    exact ⟨rfl, fun i a b ha _ => by simp at ha⟩
  | cons x rest ih =>
    intro l' h
    rw [mapE] at h
    cases hx : f x with
    | error e => rw [hx] at h; exact absurd h (by simp)
    | ok b0 =>
      rw [hx] at h
      cases hrest : mapE f rest with
      | error e => rw [hrest] at h; exact absurd h (by simp)
      | ok bs =>
        rw [hrest] at h
        simp only [Except.ok.injEq] at h
        subst h
        obtain ⟨hlen, hpt⟩ := ih hrest
        refine ⟨by simp [hlen], fun i a b ha hb => ?_⟩
        cases i with
        | zero =>
          simp only [List.get?_cons_zero, Option.some.injEq] at ha hb
          subst ha; subst hb; exact hx
        | succ j =>
          simp only [List.get?_cons_succ] at ha hb
          exact hpt j a b ha hb

/-- `find?` finds the element sitting at `findIdx`. -/
theorem get?_findIdx_of_find? {p : α → Bool} :
    ∀ {l : List α} {a : α}, l.find? p = some a →
      l.get? (l.findIdx p) = some a := by
  intro l
  induction l with
  | nil => intro a h; simp at h
  | cons x rest ih =>
    intro a h
    rw [List.find?_cons] at h
    rw [List.findIdx_cons]
    cases hx : p x with
    | true =>
      simp only [hx] at h
      cases h
      simp [hx]
    | false =>
      simp only [hx] at h
      simp only [hx, cond_false]
      simpa using ih h

/-- `updateFirst` only rewrites the position found by `findIdx`. -/
theorem updateFirst_get?_ne (aid : Str) (d : Patch) :
    ∀ (l : List ActionTask) (i : Nat),
      i ≠ l.findIdx (fun x => x.id == aid) →
      (updateFirst l aid d).get? i = l.get? i := by
  intro l
  induction l with
  | nil => intro i _; simp [updateFirst]
  | cons a rest ih =>
    intro i hi
    rw [List.findIdx_cons] at hi
    rw [updateFirst]
    cases ha : a.id == aid with
    | true =>
      simp only [ha, cond_true] at hi
      cases i with
      | zero => exact absurd rfl hi
      | succ j => simp [ha]
    | false =>
      simp only [ha, cond_false] at hi
      cases i with
      | zero => simp [ha]
      | succ j =>
        have hrec := ih j (fun he => hi (by rw [he]))
        simpa [ha] using hrec

/-- `updateFirst` merges the patch into the first matching task. -/
theorem updateFirst_get?_eq {aid : Str} {d : Patch} :
    ∀ {l : List ActionTask} {a : ActionTask},
      l.find? (fun x => x.id == aid) = some a →
      (updateFirst l aid d).get? (l.findIdx (fun x => x.id == aid)) =
        some (dictUpdate a d) := by
  intro l
  induction l with
  | nil => intro a h; simp at h
  | cons x rest ih =>
    intro a h
    rw [List.find?_cons] at h
    rw [List.findIdx_cons, updateFirst]
    cases hx : x.id == aid with
    | true =>
      simp only [hx] at h
      cases h
      simp [hx]
    | false =>
      simp only [hx] at h
      have hrec := ih h
      simpa [hx] using hrec

/-- `isTaskOwnerCr` holds exactly for a truthy canonical owner id equal to
the actor's id. -/
theorem isTaskOwnerCr_eq_true_iff (a : ActionTask) (user : Actor) :
    isTaskOwnerCr a user = true ↔
      (a.owner_id = some user.id ∧ user.id ≠ []) := by
  unfold isTaskOwnerCr
  cases ho : a.owner_id with
  | none => simp
  | some o =>
    simp only [Bool.and_eq_true, Bool.not_eq_true', beq_eq_false_iff_ne,
      beq_iff_eq, Option.some.injEq]
    constructor
    · rintro ⟨h1, rfl⟩
      exact ⟨rfl, h1⟩
    · rintro ⟨rfl, h2⟩
      exact ⟨h2, rfl⟩

/-- An actor matching the task neither by canonical id nor by the legacy
(case-insensitive) name/email fallback fails `update_action`'s owner
test. -/
theorem isTaskOwnerUpd_eq_false {a : ActionTask} {user : Actor}
    (h2 : a.owner_id ≠ some user.id)
    (h3 : lowerS a.owner ≠ lowerS user.name)
    (h4 : lowerS a.owner ≠ lowerS user.email) :
    isTaskOwnerUpd a user = false := by
  have h5 : a.owner ≠ user.name := ne_of_lowerS_ne h3
  have h6 : a.owner ≠ user.email := ne_of_lowerS_ne h4
  unfold isTaskOwnerUpd
  cases ho : a.owner_id with
  | none => simp [beq_eq_false_iff_ne, h3, h4, h5, h6]
  | some o =>
    have h7 : o ≠ user.id := fun he => h2 (by rw [ho, he])
    simp [beq_eq_false_iff_ne, h3, h4, h5, h6, h7]

/-- The boolean authorization test of `update_change_request_status`,
characterized propositionally. -/
theorem crAuth_iff (m : Meeting) (a : ActionTask) (user : Actor) :
    (isMeetingOwner m user || isTaskOwnerCr a user) = true ↔
      (m.owner_id = user.id ∨ (a.owner_id = some user.id ∧ user.id ≠ [])) := by
  simp [Bool.or_eq_true, isMeetingOwner, beq_iff_eq, isTaskOwnerCr_eq_true_iff]

/-! ### Claim theorems -/

/-- C1 counterexample: a validated payload that supplies its own summary
block keeps it verbatim — the upstream counter `999` survives processing
although the normalized task list has exactly one ACTION task, so the
summary is *not* recomputed from the tasks. -/
theorem C1_counterexample :
    process_transcript_with_gemini c1raw [] []
      = .ok ⟨[c1norm], ⟨999, 5, 7, 3⟩⟩ ∧
    recomputeSummary [c1norm] = ⟨1, 0, 0, 1⟩ ∧
    (⟨999, 5, 7, 3⟩ : Summary) ≠ ⟨1, 0, 0, 1⟩ :=
  ⟨by decide, by decide, by decide⟩

/-- C1 (amended): for every payload that processes successfully, the
resulting summary block is the upstream payload's summary taken verbatim;
the recompute-from-tasks branch applies only when the `summary` key is
absent, a shape `validate_output` has already rejected. -/
theorem C1_theorem (p : RawPayload) (t : Str) (users : Directory)
    (np : NormPayload)
    (h : process_transcript_with_gemini p t users = .ok np) :
    p.summary = some np.summary := by
  unfold process_transcript_with_gemini at h
  split at h
  case isTrue hv =>
    cases hm : mapE (normalizeTask t users) (p.actions.getD []) with
    | error e => rw [hm] at h; exact Except.noConfusion h
    | ok acts =>
      rw [hm] at h
      cases hs : p.summary with
      | none =>
        have hfalse : validate_output p = false := by
          unfold validate_output
          rw [hs]
          cases p.actions <;> rfl
        exact absurd hv (by simp [hfalse])
      | some s =>
        rw [hs] at h
        simp only [Except.ok.injEq] at h
        rw [← h]
  case isFalse => exact Except.noConfusion h

/-- C1 witness: the amended theorem applied to the concrete payload
`c1raw`, whose processing succeeds with the upstream summary kept. -/
theorem C1_witness : c1raw.summary = some ⟨999, 5, 7, 3⟩ :=
  C1_theorem c1raw [] [] ⟨[c1norm], ⟨999, 5, 7, 3⟩⟩ (by decide)

/-- C2 (code bug): the Owner Resolver is not exception-free. An owner
string that is only a parenthetical role hint strips to the empty string,
which is a substring of every stored name, so the partial-match stage
evaluates `''.split()[0]` and raises `IndexError`; symmetrically a
directory entry with an empty stored name makes `user_name.split()[0]`
raise. Neither input reaches the Unresolved result the claim promises. -/
theorem C2_theorem :
    find_user_by_name_or_context ("(Engineering)".toList) none exDirAlice
      = .error .indexError ∧
    find_user_by_name_or_context ("Bob".toList) none exDirEmptyName
      = .error .indexError :=
  ⟨by decide, by decide⟩

/-- C3 counterexample: Alice matches the legacy task's owner string by
case-insensitive email and the task has no canonical `owner_id`, yet her
change-request transition is denied — `update_change_request_status`
consults only the canonical id, with no legacy fallback. -/
theorem C3_counterexample :
    update_change_request_status exStore ("m1".toList) ("a1".toList)
      ("r1".toList) alice (some ("approved".toList))
      = (.error .authError, exStore) ∧
    legacyTask.owner_id = none ∧
    lowerS legacyTask.owner = lowerS alice.email ∧
    alice.id ≠ exMeeting.owner_id :=
  ⟨by decide, by decide, by decide, by decide⟩

/-- C3 (amended): given the meeting and task exist and the target status
is valid, `update_change_request_status` denies with an authorization
error exactly when the actor is neither the meeting owner nor the task's
owner by truthy canonical `owner_id`; the legacy name/email fallback plays
no role in this operation. -/
theorem C3_theorem (st : Store) (mid aid rid : Str) (user : Actor)
    (m : Meeting) (a : ActionTask) (s : Str)
    (hm : lookupStore st mid = some m)
    (ha : m.actions.find? (fun x => x.id == aid) = some a)
    (hs : s = ("approved".toList) ∨ s = ("rejected".toList)) :
    (update_change_request_status st mid aid rid user (some s)).1
        = .error .authError
      ↔ ¬(m.owner_id = user.id ∨ (a.owner_id = some user.id ∧ user.id ≠ [])) := by
  unfold update_change_request_status
  rcases hs with rfl | rfl
  all_goals
    simp only [hm]
    rw [if_neg (by decide)]
    simp only [ha]
    by_cases hauth :
      m.owner_id = user.id ∨ (a.owner_id = some user.id ∧ user.id ≠ [])
    · have horb := (crAuth_iff m a user).mpr hauth
      rw [if_neg (by rw [horb]; decide)]
      constructor
      · intro hx
        exfalso
        cases hcr : a.change_requests.find? (fun cr => cr.id == rid) with
        | none => rw [hcr] at hx; exact ApiErr.noConfusion (Except.error.inj hx)
        | some cr => rw [hcr] at hx; exact Except.noConfusion hx
      · intro hc
        exact absurd hauth hc
    · have horb : (isMeetingOwner m user || isTaskOwnerCr a user) = false := by
        cases hb : (isMeetingOwner m user || isTaskOwnerCr a user) with
        | false => rfl
        | true => exact absurd ((crAuth_iff m a user).mp hb) hauth
      rw [if_pos (by rw [horb]; decide)]
      exact ⟨fun _ => hauth, fun _ => rfl⟩

/-- C3 witness: the amended theorem applied to Carol, the canonical owner
of `idTask`, whose transition is therefore not an authorization error. -/
theorem C3_witness :
    (update_change_request_status exStore ("m1".toList) ("a2".toList)
      ("r1".toList) carol (some ("approved".toList))).1
      ≠ .error .authError := by
  intro hx
  exact ((C3_theorem exStore ("m1".toList) ("a2".toList) ("r1".toList) carol
      exMeeting idTask ("approved".toList) (by decide) (by decide)
      (Or.inl rfl)).mp hx) (Or.inr (by decide))

/-- C4 counterexample: against a directory entry whose stored name is
`" Alice "`, resolving `alice` succeeds, but the task's owner is set to
the *stripped* name `Alice`, which differs from the stored canonical name
obtained by dereferencing `owner_id`. -/
theorem C4_counterexample :
    process_transcript_with_gemini c4raw [] exDirPadded
      = .ok ⟨[c4norm], ⟨1, 0, 0, 0⟩⟩ ∧
    c4norm.owner_id = some ("u1".toList) ∧
    (exDirPadded.find? (fun p => p.1 == ("u1".toList))).map (fun p => p.2.name)
      = some (" Alice ".toList) ∧
    c4norm.owner ≠ (" Alice ".toList) :=
  ⟨by decide, by decide, by decide, by decide⟩

/-- C4 (amended): after successful normalization, each task's `owner_id`
is null with `owner` left exactly as extracted when resolution failed (or
was skipped for `UNASSIGNED`), and otherwise dereferences to a directory
entry whose stored name — verbatim or with surrounding whitespace
stripped, depending on the stage that matched — is the task's `owner`. -/
theorem C4_theorem (p : RawPayload) (t : Str) (users : Directory)
    (np : NormPayload)
    (h : process_transcript_with_gemini p t users = .ok np) :
    np.actions.length = (p.actions.getD []).length ∧
    ∀ i ra na, (p.actions.getD []).get? i = some ra →
      np.actions.get? i = some na →
      ((na.owner_id = none → na.owner = ra.owner) ∧
       (∀ uid, na.owner_id = some uid →
         ∃ u, (uid, u) ∈ users ∧
           (na.owner = strip u.name ∨ na.owner = u.name))) := by
  unfold process_transcript_with_gemini at h
  split at h
  · cases hm : mapE (normalizeTask t users) (p.actions.getD []) with
    | error e => rw [hm] at h; exact Except.noConfusion h
    | ok acts =>
      rw [hm] at h
      have hacts : np.actions = acts := by
        cases hsum : p.summary <;> rw [hsum] at h <;>
          simp only [Except.ok.injEq] at h <;> rw [← h]
      obtain ⟨hlen, hpt⟩ := mapE_ok_pointwise hm
      rw [hacts]
      exact ⟨hlen, fun i ra na hra hna =>
        normalizeTask_owner (hpt i ra na hra hna)⟩
  · exact Except.noConfusion h

/-- C4 witness: the amended theorem applied to the concrete payload
resolved against the padded directory. -/
theorem C4_witness :
    (⟨[c4norm], ⟨1, 0, 0, 0⟩⟩ : NormPayload).actions.length
      = (c4raw.actions.getD []).length :=
  (C4_theorem c4raw [] exDirPadded ⟨[c4norm], ⟨1, 0, 0, 0⟩⟩ (by decide)).1

/-- C5: an actor who is neither the meeting owner nor the task owner —
neither by canonical `owner_id` nor by the legacy case-insensitive
name/email fallback — is denied both `update_action` and
`update_change_request_status`, and the stored meeting record is
unchanged (the returned store is the input store). -/
theorem C5_theorem (st : Store) (mid aid rid : Str) (user : Actor)
    (d : Patch) (m : Meeting) (a : ActionTask) (s : Str)
    (hm : lookupStore st mid = some m)
    (ha : m.actions.find? (fun x => x.id == aid) = some a)
    (hs : s = ("approved".toList) ∨ s = ("rejected".toList))
    (h1 : m.owner_id ≠ user.id)
    (h2 : a.owner_id ≠ some user.id)
    (h3 : lowerS a.owner ≠ lowerS user.name)
    (h4 : lowerS a.owner ≠ lowerS user.email) :
    update_action st mid aid user d = (.error .authError, st) ∧
    update_change_request_status st mid aid rid user (some s)
      = (.error .authError, st) := by
  have hupd : isTaskOwnerUpd a user = false := isTaskOwnerUpd_eq_false h2 h3 h4
  have horb : (isMeetingOwner m user || isTaskOwnerCr a user) = false := by
    cases hb : (isMeetingOwner m user || isTaskOwnerCr a user) with
    | false => rfl
    | true =>
      rcases (crAuth_iff m a user).mp hb with hx | hx
      · exact absurd hx h1
      · exact absurd hx.1 h2
  constructor
  · unfold update_action
    simp only [hm, ha, hupd]
    rw [if_neg Bool.false_ne_true]
  · unfold update_change_request_status
    rcases hs with rfl | rfl
    all_goals
      simp only [hm]
      rw [if_neg (by decide)]
      simp only [ha]
      rw [if_pos (by rw [horb]; decide)]

/-- C5 witness: Mallory, unrelated to meeting and task, is denied both
operations on `idTask` with the store unchanged. -/
theorem C5_witness :
    update_action exStore ("m1".toList) ("a2".toList) mallory exPatch
      = (.error .authError, exStore) ∧
    update_change_request_status exStore ("m1".toList) ("a2".toList)
      ("r1".toList) mallory (some ("approved".toList))
      = (.error .authError, exStore) :=
  C5_theorem exStore ("m1".toList) ("a2".toList) ("r1".toList) mallory exPatch
    exMeeting idTask ("approved".toList) (by decide) (by decide) (Or.inl rfl)
    (by decide) (by decide) (by decide) (by decide)

/-- C6 (code bug): in the token-set stage the extracted role hint never
changes the outcome. With hint `design`, the tying entry `u2` whose role
matches the hint exists, yet the resolver returns the first tie `u1`
(role `Engineer`), because the stage returns the current entry whether or
not its role matches. -/
theorem C6_theorem :
    find_user_by_name_or_context ("John Smith (Design)".toList) none exDirTie
      = .ok (some ⟨"u1".toList, "Smith John".toList, "sj@x.com".toList,
          "Engineer".toList⟩) ∧
    roleHintOf ("John Smith (Design)".toList) = some ("design".toList) ∧
    tokenTie (toks ("John Smith".toList))
      ⟨"smith john".toList, "js@x.com".toList, "Design".toList⟩ = true ∧
    (hasSub ("design".toList) (lowerS ("Design".toList)) ||
     hasSub (lowerS ("Design".toList)) ("design".toList)) = true ∧
    (hasSub ("design".toList) (lowerS ("Engineer".toList)) ||
     hasSub (lowerS ("Engineer".toList)) ("design".toList)) = false :=
  ⟨by decide, by decide, by decide, by decide, by decide⟩

/-- C7: a change request is created with status `pending`, and
`update_change_request_status` imposes no restriction on the current
status — for *any* stored request (including one already `approved` or
`rejected`), an authorized actor's transition to a valid target status
succeeds and the new value replaces the old. -/
theorem C7_theorem (st : Store) (mid aid rid : Str) (user : Actor)
    (m : Meeting) (a : ActionTask) (cr : ChangeRequest) (s txt nid ts : Str)
    (hm : lookupStore st mid = some m)
    (ha : m.actions.find? (fun x => x.id == aid) = some a)
    (hcr : a.change_requests.find? (fun x => x.id == rid) = some cr)
    (hauth : m.owner_id = user.id ∨ (a.owner_id = some user.id ∧ user.id ≠ []))
    (hs : s = ("approved".toList) ∨ s = ("rejected".toList))
    (htxt : strip txt ≠ []) :
    (update_change_request_status st mid aid rid user (some s)).1
        = .ok { cr with status := s } ∧
    (add_change_request st mid aid user txt nid ts).1
        = .ok { id := nid, user_id := user.id, user_name := user.name,
                request := strip txt, status := ("pending".toList),
                created_at := ts } := by
  have horb := (crAuth_iff m a user).mpr hauth
  constructor
  · unfold update_change_request_status
    rcases hs with rfl | rfl
    all_goals
      simp only [hm]
      rw [if_neg (by decide)]
      simp only [ha]
      rw [if_neg (by rw [horb]; decide)]
      simp only [hcr]
      rfl
  · unfold add_change_request
    simp only [hm]
    rw [if_neg (by simp [htxt])]
    simp only [ha]

/-- C7 witness: the meeting owner re-transitions the already-`approved`
request `r2` to `rejected`, and files a fresh request that starts
`pending`. -/
theorem C7_witness :
    (update_change_request_status exStore ("m1".toList) ("a1".toList)
      ("r2".toList) ownerAct (some ("rejected".toList))).1
        = .ok { exCrApproved with status := "rejected".toList } ∧
    (add_change_request exStore ("m1".toList) ("a1".toList) ownerAct
      (" please ".toList) ("rX".toList) ("now".toList)).1
        = .ok { id := "rX".toList, user_id := ownerAct.id,
                user_name := ownerAct.name, request := "please".toList,
                status := "pending".toList, created_at := "now".toList } :=
  C7_theorem exStore ("m1".toList) ("a1".toList) ("r2".toList) ownerAct
    exMeeting legacyTask exCrApproved ("rejected".toList) (" please ".toList)
    ("rX".toList) ("now".toList) (by decide) (by decide) (by decide)
    (Or.inl rfl) (Or.inr rfl) (by decide)

/-- C8: the resolver returns Unresolved (None) immediately for the empty
string and for the literal `UNASSIGNED`, for every context and every
directory — the result is independent of the directory's contents. -/
theorem C8_theorem (ctx : Option Str) (users : Directory) :
    find_user_by_name_or_context [] ctx users = .ok none ∧
    find_user_by_name_or_context ("UNASSIGNED".toList) ctx users = .ok none :=
  ⟨rfl, rfl⟩

/-- C9: a successful `update_action` merges every supplied key of the
patch into the stored task with no field restriction (`dictUpdate` is the
pointwise overwrite), stores the meeting with only the first matching
task replaced by its patched version, and leaves every other position of
the task list and every other meeting field unchanged. -/
theorem C9_theorem (st : Store) (mid aid : Str) (user : Actor) (d : Patch)
    (m : Meeting) (a : ActionTask)
    (hm : lookupStore st mid = some m)
    (ha : m.actions.find? (fun x => x.id == aid) = some a)
    (hauth : isTaskOwnerUpd a user = true) :
    update_action st mid aid user d
      = (.ok (dictUpdate a d),
         saveMeeting st mid { m with actions := updateFirst m.actions aid d }) ∧
    (updateFirst m.actions aid d).get?
        (m.actions.findIdx (fun x => x.id == aid)) = some (dictUpdate a d) ∧
    ∀ i, i ≠ m.actions.findIdx (fun x => x.id == aid) →
      (updateFirst m.actions aid d).get? i = m.actions.get? i := by
  refine ⟨?_, updateFirst_get?_eq ha,
    fun i hi => updateFirst_get?_ne aid d m.actions i hi⟩
  unfold update_action
  simp [hm, ha, hauth]

/-- C9 witness: Carol patches her task `a2` with a patch that rewrites
`id`, `owner`, `owner_id` and `status`. -/
theorem C9_witness :
    update_action exStore ("m1".toList) ("a2".toList) carol exPatch
      = (.ok (dictUpdate idTask exPatch),
         saveMeeting exStore ("m1".toList)
           { exMeeting with
             actions := updateFirst exMeeting.actions ("a2".toList) exPatch }) :=
  (C9_theorem exStore ("m1".toList) ("a2".toList) carol exPatch exMeeting
    idTask (by decide) (by decide) (by decide)).1

/-- C10: the legacy name/email fallback of `update_action` applies even
when the task carries a truthy canonical `owner_id` naming a *different*
user: an actor whose display name or email matches the owner string
case-insensitively is allowed to update the task. -/
theorem C10_theorem (st : Store) (mid aid : Str) (user : Actor) (d : Patch)
    (m : Meeting) (a : ActionTask) (uid0 : Str)
    (hm : lookupStore st mid = some m)
    (ha : m.actions.find? (fun x => x.id == aid) = some a)
    (hid : a.owner_id = some uid0)
    (hne : uid0 ≠ user.id)
    (hleg : lowerS a.owner = lowerS user.name ∨
            lowerS a.owner = lowerS user.email) :
    (update_action st mid aid user d).1 = .ok (dictUpdate a d) := by
  have hauth : isTaskOwnerUpd a user = true := by
    unfold isTaskOwnerUpd
    rcases hleg with h | h <;> simp [h]
  unfold update_action
  simp [hm, ha, hauth]

/-- C10 witness: Victor, whose lower-cased name equals `vTask`'s owner
string while `vTask.owner_id` names Carol, successfully updates the
task. -/
theorem C10_witness :
    (update_action exStore ("m1".toList) ("a3".toList) victor exPatch).1
      = .ok (dictUpdate vTask exPatch) :=
  C10_theorem exStore ("m1".toList) ("a3".toList) victor exPatch exMeeting
    vTask ("uCarol".toList) (by decide) (by decide) (by decide) (by decide)
    (Or.inl (by decide))
